import Mathlib

/-!
Verification development for the cc-wrapper repository.

The repository brokers interactive sessions with a spawned child process:
raw process output is parsed line-by-line into typed events (`OutputParser`,
src/unnamed/part_000), events are folded into one response record
(`MessageAggregator`, same file), a per-session process handle bridges stdio
(`ClaudeProcessSpawner`, src/src/process-spawner.js), per-owner session
accounting lives in `SessionManager` (src/unnamed/part_001), and client
intents are routed by `handleUserMessage` (src/src/websocket-handler.js).

All definitions below are shallow embeddings translated directly from the
JavaScript source.  Strings are modelled as `List Char` where incremental
buffering matters and as `String` in event payloads.  Note that the source
file of `OutputParser` contains double-encoded (mojibake) glyph literals in
its regexes — e.g. the three characters "âœ“" where the one glyph U+2713
was evidently intended; the embedding reproduces the file as it is, listing
each such literal character by character.
-/

set_option maxRecDepth 20000

namespace CCWrapper

/-! ### Character classes used by the JavaScript regexes -/

/-- JavaScript regex `\s` / `String.prototype.trim` whitespace set. -/
def jsSpace (c : Char) : Bool :=
  c == ' ' || c == '\t' || c == '\n' || c == Char.ofNat 0x0B || c == Char.ofNat 0x0C ||
  c == '\r' || c == Char.ofNat 0xA0 || c == Char.ofNat 0x1680 ||
  (0x2000 ≤ c.toNat && c.toNat ≤ 0x200A) ||
  c == Char.ofNat 0x2028 || c == Char.ofNat 0x2029 || c == Char.ofNat 0x202F ||
  c == Char.ofNat 0x205F || c == Char.ofNat 0x3000 || c == Char.ofNat 0xFEFF

/-- JavaScript regex `\w`: ASCII letters, digits and underscore. -/
def jsWordChar (c : Char) : Bool :=
  c.isAlpha || c.isDigit || c == '_'

/-- Literal-head matching: `hasHead p cs` holds iff the character sequence
`p` is an initial segment of `cs` (models an anchored literal alternative of
a JavaScript regex). -/
def hasHead : List Char → List Char → Bool
  | [], _ => true
  | _ :: _, [] => false
  | p :: ps, c :: cs => p == c && hasHead ps cs

/-- Try a list of literal heads in order (regex alternation `(?:a|b|…)`);
return the rest of the line after the first head that matches. -/
def firstHeadMatch : List (List Char) → List Char → Option (List Char)
  | [], _ => none
  | h :: hs, cs => if hasHead h cs then some (cs.drop h.length) else firstHeadMatch hs cs

/-- Case-insensitive literal-head matching for an all-lowercase pattern,
modelling the `/i` flag restricted to ASCII case folding. -/
def headCI : List Char → List Char → Bool
  | [], _ => true
  | _ :: _, [] => false
  | p :: ps, c :: cs => (p == c || p == Char.toLower c) && headCI ps cs

/-! ### ParsedEvent -/

/-- Payload object of a parsed event.  The JavaScript code builds a plain
object with just the relevant keys; absent keys are modelled by the default
field values. -/
structure EvData where
  content : String := ""
  tool_name : String := ""
  parameters : String := ""
  status : String := ""
  result : String := ""
  success : Bool := false
  file_path : String := ""
  action : String := ""
  command : String := ""
  raw : String := ""
  message : String := ""
  source : String := ""
deriving DecidableEq, Repr

/-- One parsed event: `{event_type, data}` as produced by
`OutputParser._parseLine`. -/
structure Event where
  event_type : String
  data : EvData
deriving DecidableEq, Repr

/-! ### OutputParser._parseLine (src/unnamed/part_000 lines 141-246)

Each regex of the source is translated alternative by alternative.  The
source file's glyph literals are double-encoded; the character lists below
reproduce the file's literal characters exactly (hex codepoints in
comments). -/

/-- Heads of `/^(?:âº|â—|â–¶|â–º)/` (tool-call markers as present in the
file: each is the 2- or 3-character mojibake remnant of one glyph). -/
def toolCallHeads : List (List Char) :=
  [['â', 'º'],                    -- E2 BA
   ['â', '—'],                    -- E2 2014
   ['â', '–', '¶'],               -- E2 2013 B6
   ['â', '–', 'º']]               -- E2 2013 BA

/-- Heads of `/^(?:âœ“|âœ”|âœ…)/` (tool-success markers). -/
def successHeads : List (List Char) :=
  [['â', 'œ', '“'],               -- E2 153 201C
   ['â', 'œ', '”'],               -- E2 153 201D
   ['â', 'œ', '…']]               -- E2 153 2026

/-- Heads of `/^(?:âœ—|âœ˜|âŒ|Error:)/` (tool-failure markers). -/
def failureHeads : List (List Char) :=
  [['â', 'œ', '—'],               -- E2 153 2014
   ['â', 'œ', '˜'],               -- E2 153 2DC
   ['â', 'Œ'],                    -- E2 152
   ['E', 'r', 'r', 'o', 'r', ':']]

/-- Heads of `/^(?:\$|â€º|>)/` (shell-prompt markers). -/
def bashHeads : List (List Char) :=
  [['$'],
   ['â', '€', 'º'],               -- E2 20AC BA
   ['>']]

/-- Heads of `/^(?:Thinking|ğŸ¤”|ğŸ’­)/` (thinking markers; the second
glyph's last character is SOFT HYPHEN U+00AD). -/
def thinkingHeads : List (List Char) :=
  [['T', 'h', 'i', 'n', 'k', 'i', 'n', 'g'],
   ['ğ', 'Ÿ', '¤', '”'],          -- 11F 178 A4 201D
   ['ğ', 'Ÿ', '’', Char.ofNat 0xAD]]  -- 11F 178 2019 AD

/-- Characters of the decorative-rule character class
`/^[â”€â•â”â”„â”ˆâ•Œ]+$/`, listed exactly as they occur in the source. -/
def decorChars : List Char :=
  ['â', '”', '€', 'â', '•', 'â', '”', 'â', '”', '„', 'â', '”', 'ˆ', 'â', '•', 'Œ']

/-- Keyword `token` of the cost regex. -/
def tokenKey : List Char := ['t', 'o', 'k', 'e', 'n']

/-- Keyword `cost` of the cost regex. -/
def costKey : List Char := ['c', 'o', 's', 't']

/-- Tool-call rule `/^(?:âº|â—|â–¶|â–º)\s*(\w+)(?:\s+(.*))?$/`: after the
marker and optional whitespace, a nonempty maximal `\w+` word; then either
end of line, or at least one whitespace character followed by the parameter
text (the captured group with its leading whitespace run removed).  Returns
`(tool name, parameters)`. -/
def matchToolCall (cs : List Char) : Option (List Char × List Char) :=
  match firstHeadMatch toolCallHeads cs with
  | none => none
  | some rest =>
    let afterWs := rest.dropWhile jsSpace
    let word := afterWs.takeWhile jsWordChar
    let tail := afterWs.dropWhile jsWordChar
    if word.isEmpty then none
    else
      match tail with
      | [] => some (word, [])
      | t :: _ => if jsSpace t then some (word, tail.dropWhile jsSpace) else none

/-- Tool-success rule `/^(?:âœ“|âœ”|âœ…)\s*(.*)$/`: the rest of the line
with its leading whitespace run removed. -/
def matchSuccessMark (cs : List Char) : Option (List Char) :=
  match firstHeadMatch successHeads cs with
  | none => none
  | some rest => some (rest.dropWhile jsSpace)

/-- Tool-failure rule `/^(?:âœ—|âœ˜|âŒ|Error:)\s*(.*)$/`. -/
def matchFailureMark (cs : List Char) : Option (List Char) :=
  match firstHeadMatch failureHeads cs with
  | none => none
  | some rest => some (rest.dropWhile jsSpace)

/-- Keyword part of `/^(?:Editing|Writing|Reading)\s+(.+)$/` together with
the action string computed by the source from `line.startsWith`. -/
def fileEditKeyword (cs : List Char) : Option (String × List Char) :=
  if hasHead ['E', 'd', 'i', 't', 'i', 'n', 'g'] cs then some ("edit", cs.drop 7)
  else if hasHead ['W', 'r', 'i', 't', 'i', 'n', 'g'] cs then some ("write", cs.drop 7)
  else if hasHead ['R', 'e', 'a', 'd', 'i', 'n', 'g'] cs then some ("read", cs.drop 7)
  else none

/-- File-edit rule `/^(?:Editing|Writing|Reading)\s+(.+)$/`: needs at least
one whitespace character and at least one captured character; with
backtracking the captured path is the rest after `min(whitespace run,
rest.length - 1)` characters. -/
def matchFileEdit (cs : List Char) : Option (String × List Char) :=
  match fileEditKeyword cs with
  | none => none
  | some (act, rest) =>
    let k := (rest.takeWhile jsSpace).length
    let n := rest.length
    if k = 0 || n < 2 then none
    else some (act, rest.drop (min k (n - 1)))

/-- Bash rule `/^(?:\$|â€º|>)\s*(.+)$/`: needs at least one captured
character after the marker and an optional whitespace run. -/
def matchBashMark (cs : List Char) : Option (List Char) :=
  match firstHeadMatch bashHeads cs with
  | none => none
  | some rest =>
    let n := rest.length
    if n = 0 then none
    else some (rest.drop (min (rest.takeWhile jsSpace).length (n - 1)))

/-- Thinking rule `/^(?:Thinking|ğŸ¤”|ğŸ’­)(?::|\.\.\.)\s*(.*)$/`. -/
def matchThinkingMark (cs : List Char) : Option (List Char) :=
  match firstHeadMatch thinkingHeads cs with
  | none => none
  | some rest =>
    if hasHead [':'] rest then some ((rest.drop 1).dropWhile jsSpace)
    else if hasHead ['.', '.', '.'] rest then some ((rest.drop 3).dropWhile jsSpace)
    else none

/-- Cost rule `/(?:tokens?|cost).*?(\d+(?:,\d+)?)/i` as an unanchored
search: some suffix starts (case-insensitively) with `token` or `cost` and a
digit occurs after that keyword. -/
def hasCostMatch : List Char → Bool
  | [] => false
  | c :: cs =>
    (headCI tokenKey (c :: cs) && ((c :: cs).drop 5).any Char.isDigit) ||
    (headCI costKey (c :: cs) && ((c :: cs).drop 4).any Char.isDigit) ||
    hasCostMatch cs

/-- Decorative-rule suppression `line.match(/^[â”€â•â”â”„â”ˆâ•Œ]+$/)`. -/
def isDecorLine (cs : List Char) : Bool :=
  !cs.isEmpty && cs.all (fun c => decorChars.contains c)

/-- Suppression `line.match(/^[-=]+$/)`. -/
def isDashEqLine (cs : List Char) : Bool :=
  !cs.isEmpty && cs.all (fun c => c == '-' || c == '=')

/-- `OutputParser._parseLine`: classify one complete line, rules tried in
source order, first match wins; returns `none` for suppressed lines. -/
def parseLine (cs : List Char) : Option Event :=
  match matchToolCall cs with
  | some (name, params) =>
    some ⟨"tool_call", {tool_name := String.mk name, parameters := String.mk params,
                        status := "started"}⟩
  | none =>
  match matchSuccessMark cs with
  | some r => some ⟨"tool_result", {result := String.mk r, success := true}⟩
  | none =>
  match matchFailureMark cs with
  | some r => some ⟨"tool_result", {result := String.mk r, success := false}⟩
  | none =>
  match matchFileEdit cs with
  | some (act, path) => some ⟨"file_edit", {file_path := String.mk path, action := act}⟩
  | none =>
  if hasHead ['+'] cs && !hasHead ['+', '+', '+'] cs then
    some ⟨"diff_add", {content := String.mk (cs.drop 1)}⟩
  else if hasHead ['-'] cs && !hasHead ['-', '-', '-'] cs then
    some ⟨"diff_remove", {content := String.mk (cs.drop 1)}⟩
  else
  match matchBashMark cs with
  | some cmd => some ⟨"bash_command", {command := String.mk cmd, status := "started"}⟩
  | none =>
  match matchThinkingMark cs with
  | some content => some ⟨"thinking", {content := String.mk content}⟩
  | none =>
  if hasCostMatch cs then some ⟨"usage", {raw := String.mk cs}⟩
  else if cs.all jsSpace || isDecorLine cs || isDashEqLine cs then none
  else some ⟨"text", {content := String.mk cs}⟩

/-! ### OutputParser.parse (src/unnamed/part_000 lines 118-136) -/

/-- Split a buffer at every `'\n'`: returns the list of complete
(newline-terminated) lines and the trailing incomplete line, modelling
`fullBuffer.split('\n')` followed by `lines.pop()`. -/
def splitNL : List Char → List (List Char) × List Char
  | [] => ([], [])
  | c :: cs =>
    let p := splitNL cs
    if c = '\n' then ([] :: p.1, p.2)
    else
      match p.1 with
      | [] => ([], c :: p.2)
      | l :: ls => ((c :: l) :: ls, p.2)

/-- `OutputParser.parse`: the parser state is the buffered trailing
incomplete line (`this.remaining`); a call prepends it to the chunk, emits
one event per complete line via `_parseLine`, and buffers the new trailing
line. -/
def parseOne (st : List Char) (buffer : List Char) : List Event × List Char :=
  let p := splitNL (st ++ buffer)
  (p.1.filterMap parseLine, p.2)

/-- Feed a sequence of chunks through `OutputParser.parse`, concatenating
the emitted events. -/
def parseMany (st : List Char) : List (List Char) → List Event × List Char
  | [] => ([], st)
  | b :: bs =>
    let p := parseOne st b
    let q := parseMany p.2 bs
    (p.1 ++ q.1, q.2)

/-! ### MessageAggregator (src/unnamed/part_000 lines 268-370)

In the source, `currentTool` / `currentFile` / `currentBash` are aliases of
the most recently pushed record of the corresponding array; an alias is
modelled as the index of that record, and in-place mutation through the
alias as `listModify` at that index. -/

/-- Apply `f` to the element at index `i` (JavaScript in-place mutation of
an array element reached through an alias). -/
def listModify : List α → Nat → (α → α) → List α
  | [], _, _ => []
  | x :: xs, 0, f => f x :: xs
  | x :: xs, n + 1, f => x :: listModify xs n f

/-- One tool-call record; `result`/`success` are `none` until a
`tool_result` closes the slot (`result: null`, `success` key absent). -/
structure ToolRec where
  name : String
  parameters : String
  status : String
  result : Option String
  success : Option Bool
deriving DecidableEq, Repr

/-- One file-change record. -/
structure FileRec where
  file_path : String
  action : String
  additions : List String
  removals : List String
deriving DecidableEq, Repr

/-- One bash-command record (`output`/`exit_code` are never updated by the
source). -/
structure BashRec where
  command : String
  output : String
  exit_code : Option Int
deriving DecidableEq, Repr

/-- One error record. -/
structure ErrRec where
  message : String
  source : String
deriving DecidableEq, Repr

/-- The aggregated message under construction (`this.currentMessage`). -/
structure AggMsg where
  content : String
  tool_calls : List ToolRec
  file_changes : List FileRec
  bash_commands : List BashRec
  errors : List ErrRec
  thinking : List String
deriving DecidableEq, Repr

/-- Full aggregator state: the message plus the three open-slot aliases. -/
structure AggSt where
  msg : AggMsg
  currentTool : Option Nat
  currentFile : Option Nat
  currentBash : Option Nat
deriving DecidableEq, Repr

/-- `MessageAggregator.reset`: the empty baseline. -/
def aggInit : AggSt :=
  ⟨⟨"", [], [], [], [], []⟩, none, none, none⟩

/-- `MessageAggregator.addEvent`: fold one event into the state; the
`switch` cases are translated in source order, unknown event types fall
through unchanged. -/
def addEvent (st : AggSt) (e : Event) : AggSt :=
  if e.event_type = "text" then
    {st with msg := {st.msg with content := st.msg.content ++ e.data.content ++ "\n"}}
  else if e.event_type = "tool_call" then
    {st with
      msg := {st.msg with tool_calls := st.msg.tool_calls ++
        [⟨e.data.tool_name, e.data.parameters, e.data.status, none, none⟩]},
      currentTool := some st.msg.tool_calls.length}
  else if e.event_type = "tool_result" then
    match st.currentTool with
    | some i =>
      {st with
        msg := {st.msg with tool_calls := (listModify st.msg.tool_calls i
          (fun t => {t with result := some e.data.result, success := some e.data.success}))},
        currentTool := none}
    | none => st
  else if e.event_type = "file_edit" then
    {st with
      msg := {st.msg with file_changes := st.msg.file_changes ++
        [⟨e.data.file_path, e.data.action, [], []⟩]},
      currentFile := some st.msg.file_changes.length}
  else if e.event_type = "diff_add" then
    match st.currentFile with
    | some i =>
      {st with msg := {st.msg with file_changes := (listModify st.msg.file_changes i
        (fun f => {f with additions := f.additions ++ [e.data.content]}))}}
    | none => st
  else if e.event_type = "diff_remove" then
    match st.currentFile with
    | some i =>
      {st with msg := {st.msg with file_changes := (listModify st.msg.file_changes i
        (fun f => {f with removals := f.removals ++ [e.data.content]}))}}
    | none => st
  else if e.event_type = "bash_command" then
    {st with
      msg := {st.msg with bash_commands := st.msg.bash_commands ++
        [⟨e.data.command, "", none⟩]},
      currentBash := some st.msg.bash_commands.length}
  else if e.event_type = "thinking" then
    {st with msg := {st.msg with thinking := st.msg.thinking ++ [e.data.content]}}
  else if e.event_type = "error" then
    {st with msg := {st.msg with errors := st.msg.errors ++ [⟨e.data.message, e.data.source⟩]}}
  else st

/-- `trim` of JavaScript: remove leading and trailing whitespace. -/
def jsTrim (s : String) : String :=
  String.mk (((s.toList.dropWhile jsSpace).reverse.dropWhile jsSpace).reverse)

/-- `MessageAggregator.finalize`: snapshot the message with trimmed
content, then reset to the empty baseline.  (The JavaScript snapshot is a
shallow copy whose arrays are never touched again because `reset` installs
a fresh object, so the snapshot is independent of later mutation.) -/
def finalize (st : AggSt) : AggMsg × AggSt :=
  ({st.msg with content := jsTrim st.msg.content}, aggInit)

/-! ### ClaudeProcessSpawner (src/src/process-spawner.js) -/

/-- One notification emitted by the spawner through its outbound channel
(`this.emit(channel, payload)`); the payload's `timestamp` is an external
clock read and is not modelled. -/
structure SpawnNotif where
  channel : String
  type : String
  event_type : String := ""
  event_data : EvData := {}
  message : String := ""
  source : String := ""
  session_id : String
deriving DecidableEq, Repr

/-- State of one `ClaudeProcessSpawner` handle.  `hasProc` models
`this.process !== null`; `ob` is `this.outputBuffer`; `pr` is the
`OutputParser`'s `this.remaining`. -/
structure ClaudeSpawner where
  sessionId : String
  model : Option String
  workingDirectory : String
  hasProc : Bool
  isRunning : Bool
  ob : List Char
  pr : List Char
deriving DecidableEq, Repr

/-- The constructor `new ClaudeProcessSpawner(sessionId, model, workingDirectory)`. -/
def ClaudeSpawner.new (sid : String) (model : Option String) (wd : String) : ClaudeSpawner :=
  ⟨sid, model, wd, false, false, [], []⟩

/-- `isActive()`. -/
def ClaudeSpawner.isActive (s : ClaudeSpawner) : Bool := s.isRunning

/-- `start()`, parameterised by whether `ANTHROPIC_API_KEY` is present.
A double start throws (`Except.error`); a missing credential emits one
`process_error` notification and returns `null` without spawning (the
returned `Bool` is `false` for `null`, `true` for the child process); a
successful spawn installs the process and sets the running flag.  The
stdout/stderr/exit listener registrations are the stream handlers modelled
by `onStdout` below. -/
def ClaudeSpawner.start (apiKeyPresent : Bool) (s : ClaudeSpawner) :
    Except String (ClaudeSpawner × List SpawnNotif × Bool) :=
  if s.isRunning then Except.error "Process already running"
  else if !apiKeyPresent then
    Except.ok (s,
      [{channel := "process_error", type := "error",
        message := "ANTHROPIC_API_KEY environment variable is not set",
        source := "config", session_id := s.sessionId}],
      false)
  else Except.ok ({s with hasProc := true, isRunning := true}, [], true)

/-- The stdout data handler plus `_processBuffer` (lines 70-74 and
127-142): append the chunk to `outputBuffer`, run the parser over the whole
`outputBuffer`, emit one `output` notification per event stamped with the
session id, and keep `parser.getRemaining()` as the new `outputBuffer`. -/
def ClaudeSpawner.onStdout (s : ClaudeSpawner) (chunk : List Char) :
    List SpawnNotif × ClaudeSpawner :=
  let ob1 := s.ob ++ chunk
  let p := parseOne s.pr ob1
  (p.1.map (fun e =>
     {channel := "output", type := "event", event_type := e.event_type,
      event_data := e.data, session_id := s.sessionId}),
   {s with ob := p.2, pr := p.2})

/-- Deliver a sequence of stdout chunks, concatenating the emitted
notifications. -/
def ClaudeSpawner.feedStdout (s : ClaudeSpawner) :
    List (List Char) → List SpawnNotif × ClaudeSpawner
  | [] => ([], s)
  | c :: cs =>
    let p := s.onStdout c
    let q := p.2.feedStdout cs
    (p.1 ++ q.1, q.2)

/-- `write(input)`: fails when there is no process or it is not running;
otherwise appends a newline if missing and returns the text written to the
child's stdin. -/
def ClaudeSpawner.write (s : ClaudeSpawner) (input : String) : Except String String :=
  if !s.hasProc || !s.isRunning then Except.error "Process not running"
  else Except.ok (if input.toList.reverse.head? = some '\n' then input else input ++ "\n")

/-! ### SessionManager (src/unnamed/part_001)

JavaScript `Map` and `Set` are modelled as association lists / lists with
unique keys in insertion order: `set` on an existing key replaces the value
in place, otherwise appends; `add` appends only a fresh element; `delete`
removes the (unique) entry. -/

/-- `Map.get`. -/
def alGet : List (String × α) → String → Option α
  | [], _ => none
  | (k', v) :: rest, k => if k' = k then some v else alGet rest k

/-- `Map.set`. -/
def alSet : List (String × α) → String → α → List (String × α)
  | [], k, v => [(k, v)]
  | (k', v') :: rest, k, v =>
    if k' = k then (k', v) :: rest else (k', v') :: alSet rest k v

/-- `Map.delete`. -/
def alDel : List (String × α) → String → List (String × α)
  | [], _ => []
  | (k', v') :: rest, k => if k' = k then rest else (k', v') :: alDel rest k

/-- `Set.add`. -/
def sAdd (s : List String) (x : String) : List String :=
  if s.contains x then s else s ++ [x]

/-- `Set.delete`. -/
def sDel : List String → String → List String
  | [], _ => []
  | y :: r, x => if y = x then r else y :: sDel r x

/-- The per-session record stored in `activeSessions`
(`{ process, socket, userId, timer, projectRef, model }`); the timeout
timer is an external cancellable task and is not part of the state. -/
structure SessInfo where
  process : ClaudeSpawner
  socket : Nat
  userId : String
  projectRef : Option String
  model : Option String
deriving DecidableEq, Repr

/-- `SessionManager` state: `activeSessions : Map sessionId → info` and
`userSessions : Map userId → Set sessionId`. -/
structure SMState where
  active : List (String × SessInfo)
  users : List (String × List String)
deriving DecidableEq, Repr

/-- `new SessionManager()`. -/
def smInit : SMState := ⟨[], []⟩

/-- `getActiveSessionCount`. -/
def getActiveSessionCount (st : SMState) (userId : String) : Nat :=
  match alGet st.users userId with
  | some s => s.length
  | none => 0

/-- `canCreateSession`, with the configured maximum
(`MAX_SESSIONS_PER_USER`) as a parameter. -/
def canCreateSession (maxS : Nat) (st : SMState) (userId : String) : Bool :=
  getActiveSessionCount st userId < maxS

/-- `hasSession`. -/
def hasSession (st : SMState) (sid : String) : Bool :=
  (alGet st.active sid).isSome

/-- `startSession(userId, projectRef, model, workingDirectory, socket)`.
The database `createSession` call is external; the id of the record it
returns is the oracle argument `newSid`.  At capacity the function throws
(`Except.error`) before any mutation; otherwise it spawns a fresh
`ClaudeProcessSpawner`, stores the session under both indices and returns
the new state together with the session id and the spawner. -/
def startSession (maxS : Nat) (st : SMState) (userId : String)
    (projectRef : Option String) (model : Option String) (workingDirectory : String)
    (socket : Nat) (newSid : String) :
    Except String (SMState × String × ClaudeSpawner) :=
  if canCreateSession maxS st userId then
    let spawner := ClaudeSpawner.new newSid model workingDirectory
    let info : SessInfo := ⟨spawner, socket, userId, projectRef, model⟩
    let userSet := match alGet st.users userId with
      | some s => s
      | none => []
    Except.ok (⟨alSet st.active newSid info, alSet st.users userId (sAdd userSet newSid)⟩,
               newSid, spawner)
  else
    Except.error ("Max sessions (" ++ toString maxS ++ ") reached for user")

/-- Reason → persisted status mapping of `endSession`. -/
def endStatus (reason : String) : String :=
  if reason = "error" then "error"
  else if reason = "abort" then "aborted"
  else "completed"

/-- `endSession(sessionId, reason)`: no-op on an unknown id; otherwise the
timer is cleared, the process killed, the socket notified and the database
updated (all external effects), the session is removed from both indices
and the user's entry is deleted when its set becomes empty.  Returns the
new state and `{ sessionId, reason, status }` when a session was ended. -/
def endSession (st : SMState) (sid : String) (reason : String) :
    SMState × Option (String × String × String) :=
  match alGet st.active sid with
  | none => (st, none)
  | some info =>
    let active' := alDel st.active sid
    let users' := match alGet st.users info.userId with
      | none => st.users
      | some s =>
        let s' := sDel s sid
        if s'.length = 0 then alDel st.users info.userId
        else alSet st.users info.userId s'
    (⟨active', users'⟩, some (sid, reason, endStatus reason))

/-! ### handleUserMessage (src/src/websocket-handler.js lines 120-200) -/

/-- One JSON notification sent over the websocket by the handler. -/
structure RNotif where
  type : String
  message : String := ""
  session_id : String := ""
  model : Option String := none
  working_directory : String := ""
deriving DecidableEq, Repr

/-- An inbound `message` intent (`{type:'message', content?, session_id?,
model?, project_ref?}`). -/
structure InMsg where
  content : Option String := none
  session_id : Option String := none
  model : Option String := none
  project_ref : Option String := none
deriving DecidableEq, Repr

/-- Everything `handleUserMessage` does, gathered as data: notifications
sent on the socket, the registry state after the call, the session binding
(`currentSessionId` via the `setSessionId` callback), the messages
persisted through `insertMessage` as `(session_id, role, content,
event_type)`, the texts written to the child process, the sessions whose
spawner notifications were subscribed (`setupSpawnerListeners`), and the
sessions whose timeout was reset. -/
structure RouterOut where
  sent : List RNotif
  sm : SMState
  binding : Option String
  inserted : List (String × String × String × String)
  wrote : List String
  listened : List String
  timerResets : List String
deriving DecidableEq, Repr

/-- Tail of `handleUserMessage` common to the new-session and
existing-session paths: persist the user message, send `message_received`,
then `spawner.write(content)`, reporting a write failure as a session-scoped
error notification. -/
def deliverToSession (sid : String) (spw : ClaudeSpawner) (content : String)
    (sent : List RNotif) (sm : SMState) (binding : Option String)
    (listened timerResets : List String) : RouterOut :=
  let sent1 := sent ++ [{type := "message_received", session_id := sid}]
  match spw.write content with
  | Except.ok written =>
    ⟨sent1, sm, binding, [(sid, "user", content, "user_message")], [written],
     listened, timerResets⟩
  | Except.error e =>
    ⟨sent1 ++ [{type := "error", message := "Failed to send to Claude: " ++ e,
                session_id := sid}],
     sm, binding, [(sid, "user", content, "user_message")], [], listened, timerResets⟩

/-- `handleUserMessage(message, socket, user, sessionManager, settings,
currentSessionId, setSessionId)`.  External collaborators appear as
parameters: the configured session maximum, the presence of
`ANTHROPIC_API_KEY` (read when `spawner.start()` runs), the user settings
row, and the id the database assigns to a newly created session (`newSid`).
A notification emitted by `spawner.start()` before
`setupSpawnerListeners` runs has no subscriber and is therefore dropped,
exactly as in the source, where the credential-missing `process_error` is
emitted synchronously inside `start()`. -/
def handleUserMessage (maxS : Nat) (apiKeyPresent : Bool)
    (preferredModel : String) (workingDirectory : String)
    (envProjectRef : Option String) (userId : String) (socket : Nat)
    (msg : InMsg) (currentSessionId : Option String) (sm : SMState)
    (newSid : String) : RouterOut :=
  let projectRef := match msg.project_ref with
    | some p => some p
    | none => envProjectRef
  match msg.content with
  | none => ⟨[{type := "error", message := "Empty message content"}],
             sm, currentSessionId, [], [], [], []⟩
  | some content =>
    if jsTrim content = "" then
      ⟨[{type := "error", message := "Empty message content"}],
       sm, currentSessionId, [], [], [], []⟩
    else
      let sid0 := match currentSessionId with
        | some s => some s
        | none => msg.session_id
      let needNew := match sid0 with
        | none => true
        | some s => !hasSession sm s
      if needNew then
        match startSession maxS sm userId projectRef
            (some (match msg.model with | some m => m | none => preferredModel))
            workingDirectory socket newSid with
        | Except.error e =>
          ⟨[{type := "error", message := e}], sm, currentSessionId, [], [], [], []⟩
        | Except.ok (sm1, sid, spw) =>
          let startedNotif : RNotif :=
            {type := "session_started", session_id := sid, model := spw.model,
             working_directory := workingDirectory}
          match spw.start apiKeyPresent with
          | Except.error e2 =>
            ⟨[startedNotif, {type := "error", message := e2}], sm1, some sid,
             [], [], [], []⟩
          | Except.ok (spw1, _lostNotifs, _proc) =>
            let sm2 : SMState := match alGet sm1.active sid with
              | some info => ⟨alSet sm1.active sid {info with process := spw1}, sm1.users⟩
              | none => sm1
            deliverToSession sid spw1 content [startedNotif] sm2 (some sid) [sid] []
      else
        match sid0 with
        | none => ⟨[], sm, currentSessionId, [], [], [], []⟩
        | some s =>
          match alGet sm.active s with
          | none => ⟨[], sm, currentSessionId, [], [], [], []⟩
          | some info =>
            deliverToSession s info.process content [] sm currentSessionId [] [s]

/-- Sample running spawner handle used by concrete evaluations. -/
def runningDemoSpawner : ClaudeSpawner :=
  {ClaudeSpawner.new "s1" none "/w" with hasProc := true, isRunning := true}

/-- Sample session record used by concrete evaluations. -/
def demoInfo : SessInfo := ⟨ClaudeSpawner.new "s1" none "/w", 0, "u", none, none⟩

/-- Sample registry state holding one active session of owner "u". -/
def demoSM : SMState := ⟨[("s1", demoInfo)], [("u", ["s1"])]⟩

/-! ## Theorems -/

/-- C6: for every aggregator state, `finalize()` returns a snapshot whose
content is the accumulated text with surrounding whitespace trimmed and
whose lists are the accumulated lists, resets the aggregator to the empty
baseline, and an immediately following second `finalize()` returns a record
with empty content and empty tool_calls, file_changes, bash_commands,
errors and thinking lists. -/
theorem finalize_snapshot_and_resets (st : AggSt) :
    (finalize st).1.content = jsTrim st.msg.content ∧
    (finalize st).1.tool_calls = st.msg.tool_calls ∧
    (finalize st).1.file_changes = st.msg.file_changes ∧
    (finalize st).1.bash_commands = st.msg.bash_commands ∧
    (finalize st).1.errors = st.msg.errors ∧
    (finalize st).1.thinking = st.msg.thinking ∧
    (finalize st).2 = aggInit ∧
    (finalize (finalize st).2).1 = ⟨"", [], [], [], [], []⟩ := by
  refine ⟨rfl, rfl, rfl, rfl, rfl, rfl, rfl, ?_⟩
  rfl

/-- C7: a `tool_result` event arriving while no tool slot is open leaves
the aggregated message unchanged and raises no error (`addEvent` is total
and returns the state unchanged), so the dropped result is absent from the
finalized message; moreover any `tool_result` closes the slot, so a second
consecutive `tool_result` always finds no open slot. -/
theorem stray_tool_result_dropped (st : AggSt) (e : Event)
    (he : e.event_type = "tool_result") (hcur : st.currentTool = none) :
    addEvent st e = st ∧ finalize (addEvent st e) = finalize st ∧
    (∀ (st' : AggSt) (e' : Event), e'.event_type = "tool_result" →
      (addEvent st' e').currentTool = none) := by
  have h1 : addEvent st e = st := by
    simp [addEvent, he, hcur]
  refine ⟨h1, by rw [h1], ?_⟩
  intro st' e' he'
  cases h : st'.currentTool <;> simp [addEvent, he', h]

/-- C9: every event whose `event_type` is not one of text, tool_call,
tool_result, file_edit, diff_add, diff_remove, bash_command, thinking or
error — in particular the `usage` events of the Translator — leaves the
aggregator state (message and all open slots) completely unchanged. -/
theorem unhandled_event_type_is_noop (st : AggSt) (e : Event)
    (h : e.event_type ∉ (["text", "tool_call", "tool_result", "file_edit", "diff_add",
         "diff_remove", "bash_command", "thinking", "error"] : List String)) :
    addEvent st e = st := by
  simp only [List.mem_cons, List.not_mem_nil, or_false, not_or] at h
  obtain ⟨h1, h2, h3, h4, h5, h6, h7, h8, h9⟩ := h
  simp [addEvent, h1, h2, h3, h4, h5, h6, h7, h8, h9]

/-- C8: calling `start()` on a non-running handle with the credential
absent returns (rather than throwing) after emitting exactly one
`process_error` notification with source `config`, leaves the handle
non-running (`isActive()` is false), and a subsequent `write()` fails with
the usage error `Process not running`. -/
theorem start_without_credential (s : ClaudeSpawner) (input : String)
    (h : s.isRunning = false) :
    s.start false = Except.ok (s,
      [{channel := "process_error", type := "error",
        message := "ANTHROPIC_API_KEY environment variable is not set",
        source := "config", session_id := s.sessionId}], false) ∧
    s.isActive = false ∧
    s.write input = Except.error "Process not running" := by
  refine ⟨?_, ?_, ?_⟩
  · simp [ClaudeSpawner.start, h]
  · simp [ClaudeSpawner.isActive, h]
  · simp [ClaudeSpawner.write, h]

/-- C10: for every inbound message intent whose content is absent, empty
or whitespace-only, the router sends exactly one error notification with
message `Empty message content` and returns with the registry unchanged, the
binding unchanged, no message persisted and nothing written to any
process. -/
theorem empty_content_rejected (maxS : Nat) (apiKey : Bool) (pm wd : String)
    (envPr : Option String) (userId : String) (socket : Nat) (msg : InMsg)
    (cur : Option String) (sm : SMState) (newSid : String)
    (h : msg.content = none ∨ ∃ c, msg.content = some c ∧ jsTrim c = "") :
    handleUserMessage maxS apiKey pm wd envPr userId socket msg cur sm newSid =
      ⟨[{type := "error", message := "Empty message content"}], sm, cur, [], [], [], []⟩ := by
  rcases h with h | ⟨c, hc, ht⟩
  · simp [handleUserMessage, h]
  · simp [handleUserMessage, hc, ht]


/-- C7 witness: the theorem applied at the empty aggregator and a
concrete `tool_result` event. -/
theorem stray_tool_result_dropped_witness :
    (⟨"tool_result", {result := "x", success := true}⟩ : Event).event_type = "tool_result" ∧
    aggInit.currentTool = none ∧
    addEvent aggInit ⟨"tool_result", {result := "x", success := true}⟩ = aggInit :=
  ⟨rfl, rfl, (stray_tool_result_dropped aggInit ⟨"tool_result", {result := "x", success := true}⟩ rfl rfl).1⟩

/-- C9 witness: the theorem applied at the empty aggregator and a
concrete `usage` event. -/
theorem unhandled_event_type_is_noop_witness :
    (⟨"usage", {raw := "total tokens: 12"}⟩ : Event).event_type ∉
      (["text", "tool_call", "tool_result", "file_edit", "diff_add",
        "diff_remove", "bash_command", "thinking", "error"] : List String) ∧
    addEvent aggInit ⟨"usage", {raw := "total tokens: 12"}⟩ = aggInit :=
  ⟨by decide, unhandled_event_type_is_noop aggInit ⟨"usage", {raw := "total tokens: 12"}⟩ (by decide)⟩

/-- C8 witness: the theorem applied at a freshly constructed spawner
handle. -/
theorem start_without_credential_witness :
    (ClaudeSpawner.new "s1" none "/w").isRunning = false ∧
    (ClaudeSpawner.new "s1" none "/w").isActive = false ∧
    (ClaudeSpawner.new "s1" none "/w").write "hello" = Except.error "Process not running" :=
  ⟨rfl, (start_without_credential (ClaudeSpawner.new "s1" none "/w") "hello" rfl).2.1,
        (start_without_credential (ClaudeSpawner.new "s1" none "/w") "hello" rfl).2.2⟩

/-- C10 witness: the theorem applied at a whitespace-only message
content. -/
theorem empty_content_rejected_witness :
    jsTrim "   " = "" ∧
    handleUserMessage 3 true "m" "/w" none "u" 0 {content := some "   "} none smInit "s9" =
      ⟨[{type := "error", message := "Empty message content"}], smInit, none, [], [], [], []⟩ :=
  ⟨by decide, empty_content_rejected 3 true "m" "/w" none "u" 0 {content := some "   "}
      none smInit "s9" (Or.inr ⟨"   ", rfl, by decide⟩)⟩

/-- C3 (evaluation at the failing input): parsing the scenario chunk with
the real glyph lines `› ls -la` and `✓ done` yields plain `text` events for
both lines — not `bash_command` / `tool_result` as the claim states —
because the source file's marker regexes contain double-encoded glyph
literals that can never match the actual glyphs. -/
theorem scenario_glyph_lines_classified_as_text :
    (parseOne [] ("› ls -la\n✓ done\nHello world\n+added\n-removed\n").toList).1 =
      [⟨"text", {content := "› ls -la"}⟩,
       ⟨"text", {content := "✓ done"}⟩,
       ⟨"text", {content := "Hello world"}⟩,
       ⟨"diff_add", {content := "added"}⟩,
       ⟨"diff_remove", {content := "removed"}⟩] ∧
    ¬ ∃ rest, (parseOne [] ("› ls -la\n✓ done\nHello world\n+added\n-removed\n").toList).1 =
      ⟨"bash_command", {command := "ls -la", status := "started"}⟩ :: rest := by
  constructor
  · rfl
  · rintro ⟨rest, hr⟩
    rw [show (parseOne [] ("› ls -la\n✓ done\nHello world\n+added\n-removed\n").toList).1 =
      [⟨"text", {content := "› ls -la"}⟩,
       ⟨"text", {content := "✓ done"}⟩,
       ⟨"text", {content := "Hello world"}⟩,
       ⟨"diff_add", {content := "added"}⟩,
       ⟨"diff_remove", {content := "removed"}⟩] from rfl] at hr
    simp at hr

/-- C1 (evaluation at the failing input): delivering the stdout chunks
`"abc"` and `"def\n"` to a running spawner emits one output notification
whose text is `abcabcdef` — the buffered tail is duplicated because both
the spawner's `outputBuffer` and the parser's `remaining` re-prepend it —
whereas the Translator applied to the concatenation `"abcdef\n"` produces
`abcdef`. -/
theorem midline_chunk_split_duplicates_output :
    (runningDemoSpawner.feedStdout ["abc".toList, "def\n".toList]).1 =
      [{channel := "output", type := "event", event_type := "text",
        event_data := {content := "abcabcdef"}, session_id := "s1"}] ∧
    (parseOne [] ("abcdef\n").toList).1 = [⟨"text", {content := "abcdef"}⟩] ∧
    (runningDemoSpawner.feedStdout ["abc".toList, "def\n".toList]).1.map
        (fun n => (n.event_type, n.event_data)) ≠
      (parseOne [] ("abcdef\n").toList).1.map (fun e => (e.event_type, e.data)) := by
  refine ⟨rfl, rfl, ?_⟩
  decide


theorem splitNL_cons (c : Char) (cs : List Char) :
    splitNL (c :: cs) =
      if c = '\n' then ([] :: (splitNL cs).1, (splitNL cs).2)
      else
        match (splitNL cs).1 with
        | [] => ([], c :: (splitNL cs).2)
        | l :: ls => ((c :: l) :: ls, (splitNL cs).2) := rfl

theorem splitNL_append (xs ys : List Char) :
    splitNL (xs ++ ys) =
      ((splitNL xs).1 ++ (splitNL ((splitNL xs).2 ++ ys)).1,
       (splitNL ((splitNL xs).2 ++ ys)).2) := by
  induction xs with
  | nil => simp [splitNL]
  | cons c xs ih =>
    rw [List.cons_append, splitNL_cons, splitNL_cons]
    by_cases hc : c = '\n'
    · simp only [if_pos hc, ih]
      simp
    · simp only [if_neg hc]
      cases h1 : (splitNL xs).1 with
      | nil =>
        rw [ih, h1]
        rw [List.cons_append, splitNL_cons, if_neg hc]
        simp only [List.nil_append]
      | cons l ls =>
        rw [ih, h1]
        simp


theorem splitNL_rem_no_newline (cs : List Char) : '\n' ∉ (splitNL cs).2 := by
  induction cs with
  | nil => simp [splitNL]
  | cons c cs ih =>
    rw [splitNL_cons]
    by_cases hc : c = '\n'
    · simpa [if_pos hc] using ih
    · simp only [if_neg hc]
      cases h1 : (splitNL cs).1 with
      | nil => simp [List.mem_cons, ih]; exact fun h => hc h.symm
      | cons l ls => simpa using ih

theorem splitNL_of_no_newline (cs : List Char) (h : '\n' ∉ cs) : splitNL cs = ([], cs) := by
  induction cs with
  | nil => rfl
  | cons c cs ih =>
    rw [splitNL_cons]
    have hc : ¬ c = '\n' := fun he => h (he ▸ List.mem_cons_self c cs)
    have ih' := ih (fun hm => h (List.mem_cons_of_mem c hm))
    simp [if_neg hc, ih']

theorem parseMany_eq_parseOne_flatten (bs : List (List Char)) (st : List Char)
    (h : '\n' ∉ st) : parseMany st bs = parseOne st bs.flatten := by
  induction bs generalizing st with
  | nil =>
    simp [parseMany, parseOne, splitNL_of_no_newline st h]
  | cons b bs ih =>
    have hrem : '\n' ∉ (parseOne st b).2 := splitNL_rem_no_newline (st ++ b)
    show ((parseOne st b).1 ++ (parseMany (parseOne st b).2 bs).1,
          (parseMany (parseOne st b).2 bs).2) = _
    rw [ih _ hrem]
    simp only [parseOne, List.flatten]
    rw [← List.append_assoc, splitNL_append (st ++ b) bs.flatten]
    simp [List.filterMap_append]

/-- C2: for every input and every way of splitting it into chunks
(including mid-line splits), feeding the chunks to `OutputParser.parse` one
after another yields, in total and in order, the same event sequence (and
the same final buffered remainder) as feeding the whole input in a single
call to a fresh parser. -/
theorem parse_chunking_invariant (chunks : List (List Char)) :
    parseMany [] chunks = parseOne [] chunks.flatten :=
  parseMany_eq_parseOne_flatten chunks [] (by simp)


theorem beq_false_of_pred {P : Char → Bool} {c d : Char}
    (hc : P c = true) (hd : P d = false) : (d == c) = false := by
  cases hb : (d == c) with
  | false => rfl
  | true =>
    have he : d = c := eq_of_beq hb
    rw [he, hc] at hd
    cases hd

theorem hasHead_ne_first {p : Char} {ps cs : List Char} {P : Char → Bool}
    (hall : ∀ c ∈ cs, P c = true) (hp : P p = false) :
    hasHead (p :: ps) cs = false := by
  cases cs with
  | nil => rfl
  | cons c t =>
    have : (p == c) = false := beq_false_of_pred (hall c (List.mem_cons_self c t)) hp
    simp [hasHead, this]

theorem hasHead_ne_second {p q : Char} {ps cs : List Char} {P : Char → Bool}
    (hall : ∀ c ∈ cs, P c = true) (hq : P q = false) :
    hasHead (p :: q :: ps) cs = false := by
  match cs with
  | [] => rfl
  | [c] => simp [hasHead]
  | c :: d :: t =>
    have : (q == d) = false :=
      beq_false_of_pred (hall d (List.mem_cons_of_mem c (List.mem_cons_self d t))) hq
    simp [hasHead, this]

theorem hasHead_ne_third {p q r : Char} {ps cs : List Char} {P : Char → Bool}
    (hall : ∀ c ∈ cs, P c = true) (hr : P r = false) :
    hasHead (p :: q :: r :: ps) cs = false := by
  match cs with
  | [] => rfl
  | [c] => simp [hasHead]
  | [c, d] => simp [hasHead]
  | c :: d :: e :: t =>
    have : (r == e) = false :=
      beq_false_of_pred
        (hall e (List.mem_cons_of_mem c (List.mem_cons_of_mem d (List.mem_cons_self e t)))) hr
    simp [hasHead, this]

theorem hasCostMatch_false_of (cs : List Char)
    (h : ∀ c ∈ cs, (('t' == c) || ('t' == Char.toLower c)) = false ∧
                   (('c' == c) || ('c' == Char.toLower c)) = false) :
    hasCostMatch cs = false := by
  induction cs with
  | nil => rfl
  | cons c t ih =>
    have hc := h c (List.mem_cons_self c t)
    have ht : ∀ x ∈ t, (('t' == x) || ('t' == Char.toLower x)) = false ∧
                       (('c' == x) || ('c' == Char.toLower x)) = false :=
      fun x hx => h x (List.mem_cons_of_mem c hx)
    simp [hasCostMatch, headCI, tokenKey, costKey, hc.1, hc.2, ih ht]

theorem toLower_eq_self_of_out (c : Char) (h : c.toNat < 65 ∨ 90 < c.toNat) :
    Char.toLower c = c := by
  unfold Char.toLower
  rw [if_neg]
  rintro ⟨h1, h2⟩
  omega

theorem jsSpace_fix (c : Char) (h : jsSpace c = true) : Char.toLower c = c := by
  apply toLower_eq_self_of_out
  simp only [jsSpace, Bool.or_eq_true, beq_iff_eq, Bool.and_eq_true, decide_eq_true_eq] at h
  rcases h with ((((((((((((((h | h) | h) | h) | h) | h) | h) | h) | h) | h) | h) | h) | h) | h) | h)
  all_goals first
    | (subst h; decide)
    | omega

theorem decor_fix (c : Char) (h : decorChars.contains c = true) : Char.toLower c = c := by
  apply toLower_eq_self_of_out
  have hm : c ∈ decorChars := by simpa using h
  fin_cases hm <;> decide

theorem cost_chars_false_of_fix {P : Char → Bool} (c : Char) (hc : P c = true)
    (hfix : Char.toLower c = c) (ht : P 't' = false) (hcc : P 'c' = false) :
    (('t' == c) || ('t' == Char.toLower c)) = false ∧
    (('c' == c) || ('c' == Char.toLower c)) = false := by
  rw [hfix]
  constructor <;> simp [beq_false_of_pred hc ht, beq_false_of_pred hc hcc]

theorem parseLine_none_of_parts (cs : List Char)
    (h1 : firstHeadMatch toolCallHeads cs = none)
    (h2 : firstHeadMatch successHeads cs = none)
    (h3 : firstHeadMatch failureHeads cs = none)
    (h4 : fileEditKeyword cs = none)
    (h5 : hasHead ['+'] cs = false)
    (h6 : (hasHead ['-'] cs && !hasHead ['-', '-', '-'] cs) = false)
    (h7 : firstHeadMatch bashHeads cs = none)
    (h8 : firstHeadMatch thinkingHeads cs = none)
    (h9 : hasCostMatch cs = false)
    (h10 : (cs.all jsSpace || isDecorLine cs || isDashEqLine cs) = true) :
    parseLine cs = none := by
  simp [parseLine, matchToolCall, matchSuccessMark, matchFailureMark, matchFileEdit,
        matchBashMark, matchThinkingMark, h1, h2, h3, h4, h5, h6, h7, h8, h9, h10]


theorem parseLine_none_of_all_space (cs : List Char)
    (hall : ∀ c ∈ cs, jsSpace c = true) : parseLine cs = none := by
  have f1 : hasHead ['â', 'º'] cs = false := hasHead_ne_first hall (by decide)
  have f2 : hasHead ['â', '—'] cs = false := hasHead_ne_first hall (by decide)
  have f3 : hasHead ['â', '–', '¶'] cs = false := hasHead_ne_first hall (by decide)
  have f4 : hasHead ['â', '–', 'º'] cs = false := hasHead_ne_first hall (by decide)
  have s1 : hasHead ['â', 'œ', '“'] cs = false := hasHead_ne_first hall (by decide)
  have s2 : hasHead ['â', 'œ', '”'] cs = false := hasHead_ne_first hall (by decide)
  have s3 : hasHead ['â', 'œ', '…'] cs = false := hasHead_ne_first hall (by decide)
  have e1 : hasHead ['â', 'œ', '—'] cs = false := hasHead_ne_first hall (by decide)
  have e2 : hasHead ['â', 'œ', '˜'] cs = false := hasHead_ne_first hall (by decide)
  have e3 : hasHead ['â', 'Œ'] cs = false := hasHead_ne_first hall (by decide)
  have e4 : hasHead ['E', 'r', 'r', 'o', 'r', ':'] cs = false := hasHead_ne_first hall (by decide)
  have fe1 : hasHead ['E', 'd', 'i', 't', 'i', 'n', 'g'] cs = false := hasHead_ne_first hall (by decide)
  have fe2 : hasHead ['W', 'r', 'i', 't', 'i', 'n', 'g'] cs = false := hasHead_ne_first hall (by decide)
  have fe3 : hasHead ['R', 'e', 'a', 'd', 'i', 'n', 'g'] cs = false := hasHead_ne_first hall (by decide)
  have d1 : hasHead ['+'] cs = false := hasHead_ne_first hall (by decide)
  have d2 : hasHead ['-'] cs = false := hasHead_ne_first hall (by decide)
  have b1 : hasHead ['$'] cs = false := hasHead_ne_first hall (by decide)
  have b2 : hasHead ['â', '€', 'º'] cs = false := hasHead_ne_first hall (by decide)
  have b3 : hasHead ['>'] cs = false := hasHead_ne_first hall (by decide)
  have t1 : hasHead ['T', 'h', 'i', 'n', 'k', 'i', 'n', 'g'] cs = false :=
    hasHead_ne_first hall (by decide)
  have t2 : hasHead ['ğ', 'Ÿ', '¤', '”'] cs = false := hasHead_ne_first hall (by decide)
  have t3 : hasHead ['ğ', 'Ÿ', '’', Char.ofNat 0xAD] cs = false :=
    hasHead_ne_first hall (by decide)
  have hcost : hasCostMatch cs = false :=
    hasCostMatch_false_of cs (fun c hc =>
      cost_chars_false_of_fix (P := jsSpace) c (hall c hc) (jsSpace_fix c (hall c hc))
        (by decide) (by decide))
  refine parseLine_none_of_parts cs ?_ ?_ ?_ ?_ d1 ?_ ?_ ?_ hcost ?_
  · simp [firstHeadMatch, toolCallHeads, f1, f2, f3, f4]
  · simp [firstHeadMatch, successHeads, s1, s2, s3]
  · simp [firstHeadMatch, failureHeads, e1, e2, e3, e4]
  · simp [fileEditKeyword, fe1, fe2, fe3]
  · simp [d2]
  · simp [firstHeadMatch, bashHeads, b1, b2, b3]
  · simp [firstHeadMatch, thinkingHeads, t1, t2, t3]
  · simp [List.all_eq_true.mpr hall]


theorem parseLine_none_of_decor (cs : List Char) (hne : cs ≠ [])
    (hall : ∀ c ∈ cs, decorChars.contains c = true)
    (hfm : hasHead ['â', 'Œ'] cs = false) : parseLine cs = none := by
  have f1 : hasHead ['â', 'º'] cs = false := hasHead_ne_second hall (by decide)
  have f2 : hasHead ['â', '—'] cs = false := hasHead_ne_second hall (by decide)
  have f3 : hasHead ['â', '–', '¶'] cs = false := hasHead_ne_second hall (by decide)
  have f4 : hasHead ['â', '–', 'º'] cs = false := hasHead_ne_second hall (by decide)
  have s1 : hasHead ['â', 'œ', '“'] cs = false := hasHead_ne_second hall (by decide)
  have s2 : hasHead ['â', 'œ', '”'] cs = false := hasHead_ne_second hall (by decide)
  have s3 : hasHead ['â', 'œ', '…'] cs = false := hasHead_ne_second hall (by decide)
  have e1 : hasHead ['â', 'œ', '—'] cs = false := hasHead_ne_second hall (by decide)
  have e2 : hasHead ['â', 'œ', '˜'] cs = false := hasHead_ne_second hall (by decide)
  have e4 : hasHead ['E', 'r', 'r', 'o', 'r', ':'] cs = false := hasHead_ne_first hall (by decide)
  have fe1 : hasHead ['E', 'd', 'i', 't', 'i', 'n', 'g'] cs = false := hasHead_ne_first hall (by decide)
  have fe2 : hasHead ['W', 'r', 'i', 't', 'i', 'n', 'g'] cs = false := hasHead_ne_first hall (by decide)
  have fe3 : hasHead ['R', 'e', 'a', 'd', 'i', 'n', 'g'] cs = false := hasHead_ne_first hall (by decide)
  have d1 : hasHead ['+'] cs = false := hasHead_ne_first hall (by decide)
  have d2 : hasHead ['-'] cs = false := hasHead_ne_first hall (by decide)
  have b1 : hasHead ['$'] cs = false := hasHead_ne_first hall (by decide)
  have b2 : hasHead ['â', '€', 'º'] cs = false := hasHead_ne_third hall (by decide)
  have b3 : hasHead ['>'] cs = false := hasHead_ne_first hall (by decide)
  have t1 : hasHead ['T', 'h', 'i', 'n', 'k', 'i', 'n', 'g'] cs = false :=
    hasHead_ne_first hall (by decide)
  have t2 : hasHead ['ğ', 'Ÿ', '¤', '”'] cs = false := hasHead_ne_first hall (by decide)
  have t3 : hasHead ['ğ', 'Ÿ', '’', Char.ofNat 0xAD] cs = false :=
    hasHead_ne_first hall (by decide)
  have hcost : hasCostMatch cs = false :=
    hasCostMatch_false_of cs (fun c hc =>
      cost_chars_false_of_fix (P := fun c => decorChars.contains c) c (hall c hc)
        (decor_fix c (hall c hc)) (by decide) (by decide))
  refine parseLine_none_of_parts cs ?_ ?_ ?_ ?_ d1 ?_ ?_ ?_ hcost ?_
  · simp [firstHeadMatch, toolCallHeads, f1, f2, f3, f4]
  · simp [firstHeadMatch, successHeads, s1, s2, s3]
  · simp [firstHeadMatch, failureHeads, e1, e2, hfm, e4]
  · simp [fileEditKeyword, fe1, fe2, fe3]
  · simp [d2]
  · simp [firstHeadMatch, bashHeads, b1, b2, b3]
  · simp [firstHeadMatch, thinkingHeads, t1, t2, t3]
  · have hd : isDecorLine cs = true := by
      have h2 : cs.all (fun c => decorChars.contains c) = true := List.all_eq_true.mpr hall
      cases cs with
      | nil => exact absurd rfl hne
      | cons c t =>
        unfold isDecorLine
        rw [h2]
        simp
    simp [hd]

theorem parseLine_none_of_eq_run (cs : List Char) (hne : cs ≠ [])
    (h : ∀ c ∈ cs, c = '=') : parseLine cs = none := by
  have hall : ∀ c ∈ cs, (c == '=') = true := by
    intro c hc
    rw [h c hc]
    decide
  have f1 : hasHead ['â', 'º'] cs = false := hasHead_ne_first hall (by decide)
  have f2 : hasHead ['â', '—'] cs = false := hasHead_ne_first hall (by decide)
  have f3 : hasHead ['â', '–', '¶'] cs = false := hasHead_ne_first hall (by decide)
  have f4 : hasHead ['â', '–', 'º'] cs = false := hasHead_ne_first hall (by decide)
  have s1 : hasHead ['â', 'œ', '“'] cs = false := hasHead_ne_first hall (by decide)
  have s2 : hasHead ['â', 'œ', '”'] cs = false := hasHead_ne_first hall (by decide)
  have s3 : hasHead ['â', 'œ', '…'] cs = false := hasHead_ne_first hall (by decide)
  have e1 : hasHead ['â', 'œ', '—'] cs = false := hasHead_ne_first hall (by decide)
  have e2 : hasHead ['â', 'œ', '˜'] cs = false := hasHead_ne_first hall (by decide)
  have e3 : hasHead ['â', 'Œ'] cs = false := hasHead_ne_first hall (by decide)
  have e4 : hasHead ['E', 'r', 'r', 'o', 'r', ':'] cs = false := hasHead_ne_first hall (by decide)
  have fe1 : hasHead ['E', 'd', 'i', 't', 'i', 'n', 'g'] cs = false := hasHead_ne_first hall (by decide)
  have fe2 : hasHead ['W', 'r', 'i', 't', 'i', 'n', 'g'] cs = false := hasHead_ne_first hall (by decide)
  have fe3 : hasHead ['R', 'e', 'a', 'd', 'i', 'n', 'g'] cs = false := hasHead_ne_first hall (by decide)
  have d1 : hasHead ['+'] cs = false := hasHead_ne_first hall (by decide)
  have d2 : hasHead ['-'] cs = false := hasHead_ne_first hall (by decide)
  have b1 : hasHead ['$'] cs = false := hasHead_ne_first hall (by decide)
  have b2 : hasHead ['â', '€', 'º'] cs = false := hasHead_ne_first hall (by decide)
  have b3 : hasHead ['>'] cs = false := hasHead_ne_first hall (by decide)
  have t1 : hasHead ['T', 'h', 'i', 'n', 'k', 'i', 'n', 'g'] cs = false :=
    hasHead_ne_first hall (by decide)
  have t2 : hasHead ['ğ', 'Ÿ', '¤', '”'] cs = false := hasHead_ne_first hall (by decide)
  have t3 : hasHead ['ğ', 'Ÿ', '’', Char.ofNat 0xAD] cs = false :=
    hasHead_ne_first hall (by decide)
  have hcost : hasCostMatch cs = false := by
    refine hasCostMatch_false_of cs (fun c hc => ?_)
    cases h c hc
    exact ⟨by decide, by decide⟩
  refine parseLine_none_of_parts cs ?_ ?_ ?_ ?_ d1 ?_ ?_ ?_ hcost ?_
  · simp [firstHeadMatch, toolCallHeads, f1, f2, f3, f4]
  · simp [firstHeadMatch, successHeads, s1, s2, s3]
  · simp [firstHeadMatch, failureHeads, e1, e2, e3, e4]
  · simp [fileEditKeyword, fe1, fe2, fe3]
  · simp [d2]
  · simp [firstHeadMatch, bashHeads, b1, b2, b3]
  · simp [firstHeadMatch, thinkingHeads, t1, t2, t3]
  · have hd : isDashEqLine cs = true := by
      have h2 : cs.all (fun c => c == '-' || c == '=') = true := by
        refine List.all_eq_true.mpr (fun x hx => ?_)
        rw [h x hx]
        decide
      cases cs with
      | nil => exact absurd rfl hne
      | cons c t =>
        unfold isDashEqLine
        rw [h2]
        simp
    simp [hd]


theorem parseLine_none_of_dash_run (cs : List Char) (hlen : 3 ≤ cs.length)
    (h : ∀ c ∈ cs, c = '-') : parseLine cs = none := by
  have hall : ∀ c ∈ cs, (c == '-') = true := by
    intro c hc
    rw [h c hc]
    decide
  have f1 : hasHead ['â', 'º'] cs = false := hasHead_ne_first hall (by decide)
  have f2 : hasHead ['â', '—'] cs = false := hasHead_ne_first hall (by decide)
  have f3 : hasHead ['â', '–', '¶'] cs = false := hasHead_ne_first hall (by decide)
  have f4 : hasHead ['â', '–', 'º'] cs = false := hasHead_ne_first hall (by decide)
  have s1 : hasHead ['â', 'œ', '“'] cs = false := hasHead_ne_first hall (by decide)
  have s2 : hasHead ['â', 'œ', '”'] cs = false := hasHead_ne_first hall (by decide)
  have s3 : hasHead ['â', 'œ', '…'] cs = false := hasHead_ne_first hall (by decide)
  have e1 : hasHead ['â', 'œ', '—'] cs = false := hasHead_ne_first hall (by decide)
  have e2 : hasHead ['â', 'œ', '˜'] cs = false := hasHead_ne_first hall (by decide)
  have e3 : hasHead ['â', 'Œ'] cs = false := hasHead_ne_first hall (by decide)
  have e4 : hasHead ['E', 'r', 'r', 'o', 'r', ':'] cs = false := hasHead_ne_first hall (by decide)
  have fe1 : hasHead ['E', 'd', 'i', 't', 'i', 'n', 'g'] cs = false := hasHead_ne_first hall (by decide)
  have fe2 : hasHead ['W', 'r', 'i', 't', 'i', 'n', 'g'] cs = false := hasHead_ne_first hall (by decide)
  have fe3 : hasHead ['R', 'e', 'a', 'd', 'i', 'n', 'g'] cs = false := hasHead_ne_first hall (by decide)
  have d1 : hasHead ['+'] cs = false := hasHead_ne_first hall (by decide)
  have b1 : hasHead ['$'] cs = false := hasHead_ne_first hall (by decide)
  have b2 : hasHead ['â', '€', 'º'] cs = false := hasHead_ne_first hall (by decide)
  have b3 : hasHead ['>'] cs = false := hasHead_ne_first hall (by decide)
  have t1 : hasHead ['T', 'h', 'i', 'n', 'k', 'i', 'n', 'g'] cs = false :=
    hasHead_ne_first hall (by decide)
  have t2 : hasHead ['ğ', 'Ÿ', '¤', '”'] cs = false := hasHead_ne_first hall (by decide)
  have t3 : hasHead ['ğ', 'Ÿ', '’', Char.ofNat 0xAD] cs = false :=
    hasHead_ne_first hall (by decide)
  have hcost : hasCostMatch cs = false := by
    refine hasCostMatch_false_of cs (fun c hc => ?_)
    cases h c hc
    exact ⟨by decide, by decide⟩
  have hddd : hasHead ['-', '-', '-'] cs = true := by
    match cs, hlen with
    | a :: b :: d :: t, _ =>
      have ha := h a (by simp)
      have hb := h b (by simp)
      have hd := h d (by simp)
      subst ha hb hd
      simp [hasHead]
  refine parseLine_none_of_parts cs ?_ ?_ ?_ ?_ d1 ?_ ?_ ?_ hcost ?_
  · simp [firstHeadMatch, toolCallHeads, f1, f2, f3, f4]
  · simp [firstHeadMatch, successHeads, s1, s2, s3]
  · simp [firstHeadMatch, failureHeads, e1, e2, e3, e4]
  · simp [fileEditKeyword, fe1, fe2, fe3]
  · simp [hddd]
  · simp [firstHeadMatch, bashHeads, b1, b2, b3]
  · simp [firstHeadMatch, thinkingHeads, t1, t2, t3]
  · have hd : isDashEqLine cs = true := by
      have h2 : cs.all (fun c => c == '-' || c == '=') = true := by
        refine List.all_eq_true.mpr (fun x hx => ?_)
        rw [h x hx]
        decide
      match cs, hlen with
      | a :: t, _ =>
        unfold isDashEqLine
        rw [h2]
        simp
    simp [hd]

/-- C4 (amended): every line that is blank (whitespace-only), or a pure run
of `=` of any length, or a pure run of `-` of length at least three, or
composed solely of characters of the code's suppression character class —
which, owing to the source file's double-encoded glyph literals, is the
mojibake remnant set listed in `decorChars` rather than the intended
decorative glyphs — and not beginning with the failure-marker remnant `âŒ`,
produces no event.  Each carve-out from the original claim is forced by one
line of the counterexample theorem: a `-` run of length one or two is a
`diff_remove` event (the diff rule precedes suppression), a line of real
decorative glyphs such as `───` is a `text` event (the class literals are
corrupted, the same encoding slip as in C3), and a class line beginning
with `âŒ` is a `tool_result` event (the earlier tool-failure rule matches
the remnant first). -/
theorem suppressed_lines_produce_no_event (cs : List Char)
    (h : (∀ c ∈ cs, jsSpace c = true) ∨
         (cs ≠ [] ∧ (∀ c ∈ cs, decorChars.contains c = true) ∧
            hasHead ['â', 'Œ'] cs = false) ∨
         (cs ≠ [] ∧ ∀ c ∈ cs, c = '=') ∨
         (3 ≤ cs.length ∧ ∀ c ∈ cs, c = '-')) :
    parseLine cs = none := by
  rcases h with h | ⟨hne, hall, hfm⟩ | ⟨hne, hall⟩ | ⟨hlen, hall⟩
  · exact parseLine_none_of_all_space cs h
  · exact parseLine_none_of_decor cs hne hall hfm
  · exact parseLine_none_of_eq_run cs hne hall
  · exact parseLine_none_of_dash_run cs hlen hall

/-- C4 witness: the amended statement applied at the concrete lines `=`
and `---`. -/
theorem suppressed_lines_produce_no_event_witness :
    (((['='] : List Char) ≠ [] ∧ ∀ c ∈ (['='] : List Char), c = '=') ∧
      parseLine ['='] = none) ∧
    ((3 ≤ (['-', '-', '-'] : List Char).length ∧
        ∀ c ∈ (['-', '-', '-'] : List Char), c = '-') ∧
      parseLine ['-', '-', '-'] = none) :=
  ⟨⟨⟨by decide, by decide⟩,
    suppressed_lines_produce_no_event ['='] (Or.inr (Or.inr (Or.inl ⟨by decide, by decide⟩)))⟩,
   ⟨⟨by decide, by decide⟩,
    suppressed_lines_produce_no_event ['-', '-', '-']
      (Or.inr (Or.inr (Or.inr ⟨by decide, by decide⟩)))⟩⟩

/-- C4 counterexample: three concrete lines the claim says are suppressed
each produce an event.  The line `-` is a pure run of `-` characters, yet
`_parseLine` classifies it as a `diff_remove` event (the diff rule runs
before suppression).  The line `───` is composed solely of decorative rule
glyphs (U+2500), yet it produces a `text` event, because the source file's
suppression character class holds only the double-encoded remnants of the
glyphs, not the glyphs themselves.  The line `âŒ` is composed solely of
characters of that class as it appears in the file, yet it produces a
`tool_result` event, because it is also the failure-marker remnant matched
by the earlier tool-failure rule. -/
theorem claimed_suppressed_lines_produce_events :
    parseLine ['-'] = some ⟨"diff_remove", {content := ""}⟩ ∧
    parseLine ['─', '─', '─'] = some ⟨"text", {content := "───"}⟩ ∧
    parseLine ['â', 'Œ'] = some ⟨"tool_result", {result := "", success := false}⟩ :=
  ⟨rfl, rfl, rfl⟩



theorem alGet_alSet (m : List (String × α)) (k k' : String) (v : α) :
    alGet (alSet m k v) k' = if k = k' then some v else alGet m k' := by
  induction m with
  | nil =>
    by_cases h : k = k' <;> simp [alSet, alGet, h]
  | cons p m ih =>
    obtain ⟨k0, v0⟩ := p
    by_cases h0 : k0 = k
    · subst h0
      by_cases h1 : k0 = k' <;> simp [alSet, alGet, h1]
    · by_cases h1 : k0 = k'
      · subst h1
        have hk : ¬ k = k0 := fun he => h0 he.symm
        simp [alSet, alGet, h0, hk]
      · simp [alSet, alGet, h0, h1, ih]


theorem alGet_none_of_not_mem_keys (m : List (String × α)) (k : String)
    (h : k ∉ m.map Prod.fst) : alGet m k = none := by
  induction m with
  | nil => rfl
  | cons p m ih =>
    obtain ⟨k0, v0⟩ := p
    simp only [List.map_cons, List.mem_cons, not_or] at h
    have hne : ¬ k0 = k := fun he => h.1 he.symm
    simp [alGet, hne, ih h.2]

theorem alGet_alDel_ne (m : List (String × α)) (k k' : String) (h : k ≠ k') :
    alGet (alDel m k) k' = alGet m k' := by
  induction m with
  | nil => rfl
  | cons p m ih =>
    obtain ⟨k0, v0⟩ := p
    by_cases h0 : k0 = k
    · subst h0
      have hne : ¬ k0 = k' := fun he => h (he ▸ rfl)
      simp [alDel, alGet, hne]
    · by_cases h1 : k0 = k'
      · subst h1
        simp [alDel, alGet, h0]
      · simp [alDel, alGet, h0, h1, ih]

theorem alGet_alDel_self (m : List (String × α)) (k : String)
    (hk : (m.map Prod.fst).Nodup) : alGet (alDel m k) k = none := by
  induction m with
  | nil => rfl
  | cons p m ih =>
    obtain ⟨k0, v0⟩ := p
    simp only [List.map_cons, List.nodup_cons] at hk
    by_cases h0 : k0 = k
    · subst h0
      simp only [alDel, if_pos rfl]
      exact alGet_none_of_not_mem_keys m k0 hk.1
    · simp [alDel, alGet, h0, ih hk.2]

theorem sAdd_length_le (s : List String) (x : String) :
    (sAdd s x).length ≤ s.length + 1 := by
  by_cases h : x ∈ s <;> simp [sAdd, h]

theorem sAdd_length_of_not_mem (s : List String) (x : String) (h : x ∉ s) :
    (sAdd s x).length = s.length + 1 := by
  simp [sAdd, h]


theorem sDel_length_le (s : List String) (x : String) :
    (sDel s x).length ≤ s.length := by
  induction s with
  | nil => simp [sDel]
  | cons y r ih =>
    by_cases h : y = x
    · simp [sDel, h]
    · simp [sDel, h]
      omega

theorem sDel_length_of_mem (s : List String) (x : String) (h : x ∈ s) :
    s.length = (sDel s x).length + 1 := by
  induction s with
  | nil => cases h
  | cons y r ih =>
    by_cases hy : y = x
    · simp [sDel, hy]
    · have hx : x ∈ r := by
        rcases List.mem_cons.mp h with he | hm
        · exact absurd he.symm hy
        · exact hm
      simp [sDel, hy, ih hx]

theorem sDel_subset (s : List String) (x y : String) (h : y ∈ sDel s x) : y ∈ s := by
  induction s with
  | nil => simp [sDel] at h
  | cons z r ih =>
    by_cases hz : z = x
    · rw [sDel, if_pos hz] at h
      exact List.mem_cons_of_mem z h
    · rw [sDel, if_neg hz] at h
      rcases List.mem_cons.mp h with he | hm
      · exact he ▸ List.mem_cons_self z r
      · exact List.mem_cons_of_mem z (ih hm)


theorem startSession_ok (maxS : Nat) (st : SMState) (u : String) (pr mo : Option String)
    (wd : String) (sk : Nat) (ns : String)
    (h : getActiveSessionCount st u < maxS) :
    startSession maxS st u pr mo wd sk ns =
      Except.ok (⟨alSet st.active ns ⟨ClaudeSpawner.new ns mo wd, sk, u, pr, mo⟩,
                  alSet st.users u (sAdd (match alGet st.users u with
                    | some s => s
                    | none => []) ns)⟩,
                 ns, ClaudeSpawner.new ns mo wd) := by
  simp [startSession, canCreateSession, h]

theorem startSession_at_capacity (maxS : Nat) (st : SMState) (u : String)
    (pr mo : Option String) (wd : String) (sk : Nat) (ns : String)
    (h : ¬ getActiveSessionCount st u < maxS) :
    startSession maxS st u pr mo wd sk ns =
      Except.error ("Max sessions (" ++ toString maxS ++ ") reached for user") := by
  simp [startSession, canCreateSession, h]

theorem count_alSet_self (active : List (String × SessInfo))
    (users : List (String × List String)) (u : String) (s : List String) :
    getActiveSessionCount ⟨active, alSet users u s⟩ u = s.length := by
  simp [getActiveSessionCount, alGet_alSet]

/-- C5: when an owner's active-session count equals the configured
maximum, `startSession` for that owner fails with the capacity error and
registers nothing (it throws before any mutation); after `endSession` on
one of that owner's active sessions exactly one further `startSession`
succeeds (the next one fails again); and neither operation ever pushes an
owner's active-session count above the maximum. -/
theorem session_capacity_enforced
    (maxS : Nat) (st : SMState) (u sid : String) (info : SessInfo) (l : List String)
    (hact : alGet st.active sid = some info) (huid : info.userId = u)
    (hl : alGet st.users u = some l)
    (hkeys : (st.users.map Prod.fst).Nodup)
    (hmem : sid ∈ l) (hcount : l.length = maxS) :
    (∀ pr mo wd sk ns, startSession maxS st u pr mo wd sk ns =
       Except.error ("Max sessions (" ++ toString maxS ++ ") reached for user")) ∧
    (∀ reason pr mo wd sk ns, ns ∉ l →
       getActiveSessionCount (endSession st sid reason).1 u = maxS - 1 ∧
       (∃ st2 spw, startSession maxS (endSession st sid reason).1 u pr mo wd sk ns =
           Except.ok (st2, ns, spw) ∧
         getActiveSessionCount st2 u = maxS ∧
         ∀ pr2 mo2 wd2 sk2 ns2, startSession maxS st2 u pr2 mo2 wd2 sk2 ns2 =
           Except.error ("Max sessions (" ++ toString maxS ++ ") reached for user"))) ∧
    (∀ (st0 : SMState) (v u0 : String) (pr mo : Option String) (wd : String) (sk : Nat)
       (ns : String) (res : SMState × String × ClaudeSpawner),
       getActiveSessionCount st0 u0 ≤ maxS →
       startSession maxS st0 v pr mo wd sk ns = Except.ok res →
       getActiveSessionCount res.1 u0 ≤ maxS) ∧
    (∀ (st0 : SMState) (u0 sid0 reason : String),
       (st0.users.map Prod.fst).Nodup →
       getActiveSessionCount st0 u0 ≤ maxS →
       getActiveSessionCount (endSession st0 sid0 reason).1 u0 ≤ maxS) := by
  have hcnt : getActiveSessionCount st u = maxS := by
    simp [getActiveSessionCount, hl, hcount]
  have hmax1 : 1 ≤ maxS := by
    cases l with
    | nil => cases hmem
    | cons a t => simp at hcount; omega
  refine ⟨?_, ?_, ?_, ?_⟩
  · intro pr mo wd sk ns
    exact startSession_at_capacity maxS st u pr mo wd sk ns (by omega)
  · intro reason pr mo wd sk ns hns
    have hend : (endSession st sid reason).1 =
        ⟨alDel st.active sid,
         if (sDel l sid).length = 0 then alDel st.users u
         else alSet st.users u (sDel l sid)⟩ := by
      simp [endSession, hact, huid, hl]
    have hlen : l.length = (sDel l sid).length + 1 := sDel_length_of_mem l sid hmem
    have hns' : ns ∉ sDel l sid := fun hin => hns (sDel_subset l sid ns hin)
    by_cases hz : (sDel l sid).length = 0
    · have hm1 : maxS = 1 := by omega
      have husers : alGet (endSession st sid reason).1.users u = none := by
        rw [hend]
        simp only [if_pos hz]
        exact alGet_alDel_self st.users u hkeys
      have hcnt1 : getActiveSessionCount (endSession st sid reason).1 u = 0 := by
        simp [getActiveSessionCount, husers]
      refine ⟨by omega, ?_⟩
      refine ⟨_, _, startSession_ok maxS _ u pr mo wd sk ns (by omega), ?_, ?_⟩
      · rw [husers]
        rw [count_alSet_self]
        have : sDel l sid = [] := List.length_eq_zero.mp hz
        simp [sAdd, hm1]
      · intro pr2 mo2 wd2 sk2 ns2
        apply startSession_at_capacity
        rw [husers, count_alSet_self]
        simp [sAdd, hm1]
    · have husers : alGet (endSession st sid reason).1.users u = some (sDel l sid) := by
        rw [hend]
        simp only [if_neg hz]
        simp [alGet_alSet]
      have hcnt1 : getActiveSessionCount (endSession st sid reason).1 u =
          (sDel l sid).length := by
        simp [getActiveSessionCount, husers]
      refine ⟨by omega, ?_⟩
      refine ⟨_, _, startSession_ok maxS _ u pr mo wd sk ns (by omega), ?_, ?_⟩
      · rw [husers, count_alSet_self, sAdd_length_of_not_mem _ _ hns']
        omega
      · intro pr2 mo2 wd2 sk2 ns2
        apply startSession_at_capacity
        rw [husers, count_alSet_self, sAdd_length_of_not_mem _ _ hns']
        omega
  · intro st0 v u0 pr mo wd sk ns res hle hok
    by_cases hcan : getActiveSessionCount st0 v < maxS
    · rw [startSession_ok maxS st0 v pr mo wd sk ns hcan] at hok
      cases hok
      by_cases huv : v = u0
      · subst huv
        rw [count_alSet_self]
        have hset : (match alGet st0.users v with
            | some s => s
            | none => []).length = getActiveSessionCount st0 v := by
          unfold getActiveSessionCount
          cases alGet st0.users v <;> simp
        have hsa := sAdd_length_le (match alGet st0.users v with
            | some s => s
            | none => []) ns
        omega
      · have : getActiveSessionCount
            (⟨alSet st0.active ns ⟨ClaudeSpawner.new ns mo wd, sk, v, pr, mo⟩,
              alSet st0.users v (sAdd (match alGet st0.users v with
                | some s => s
                | none => []) ns)⟩ : SMState) u0 = getActiveSessionCount st0 u0 := by
          simp [getActiveSessionCount, alGet_alSet, huv]
        rw [this]
        exact hle
    · rw [startSession_at_capacity maxS st0 v pr mo wd sk ns hcan] at hok
      cases hok
  · intro st0 u0 sid0 reason hnd hle
    rcases ha : alGet st0.active sid0 with _ | info0
    · simp [endSession, ha]
      exact hle
    · rcases hu : alGet st0.users info0.userId with _ | s
      · simp [endSession, ha, hu]
        exact hle
      · by_cases hz : (sDel s sid0).length = 0
        · have hz' : sDel s sid0 = [] := List.length_eq_zero.mp hz
          have : (endSession st0 sid0 reason).1 =
              ⟨alDel st0.active sid0, alDel st0.users info0.userId⟩ := by
            simp [endSession, ha, hu, hz']
          rw [this]
          by_cases hui : info0.userId = u0
          · subst hui
            have : alGet (alDel st0.users info0.userId) info0.userId = none :=
              alGet_alDel_self st0.users info0.userId hnd
            simp [getActiveSessionCount, this]
          · have : alGet (alDel st0.users info0.userId) u0 = alGet st0.users u0 :=
              alGet_alDel_ne st0.users info0.userId u0 hui
            simpa [getActiveSessionCount, this] using hle
        · have hz' : ¬ sDel s sid0 = [] := fun he => hz (by simp [he])
          have hst : (endSession st0 sid0 reason).1 =
              ⟨alDel st0.active sid0, alSet st0.users info0.userId (sDel s sid0)⟩ := by
            simp [endSession, ha, hu, hz']
          rw [hst]
          by_cases hui : info0.userId = u0
          · subst hui
            rw [show getActiveSessionCount
                  (⟨alDel st0.active sid0,
                    alSet st0.users info0.userId (sDel s sid0)⟩ : SMState) info0.userId =
                (sDel s sid0).length from by simp [getActiveSessionCount, alGet_alSet]]
            have h1 : (sDel s sid0).length ≤ s.length := sDel_length_le s sid0
            have h2 : getActiveSessionCount st0 info0.userId = s.length := by
              simp [getActiveSessionCount, hu]
            omega
          · have : alGet (alSet st0.users info0.userId (sDel s sid0)) u0 =
                alGet st0.users u0 := by
              rw [alGet_alSet]
              simp [hui]
            simpa [getActiveSessionCount, this] using hle

/-- C5 witness: the theorem applied at a concrete registry with maximum 1
and one active session. -/
theorem session_capacity_enforced_witness :
    startSession 1 demoSM "u" none none "/w" 0 "s2" =
      Except.error ("Max sessions (" ++ toString 1 ++ ") reached for user") ∧
    getActiveSessionCount (endSession demoSM "s1" "abort").1 "u" = 1 - 1 :=
  ⟨(session_capacity_enforced 1 demoSM "u" "s1" demoInfo ["s1"] rfl rfl rfl
      (by decide) (by decide) rfl).1 none none "/w" 0 "s2",
   ((session_capacity_enforced 1 demoSM "u" "s1" demoInfo ["s1"] rfl rfl rfl
      (by decide) (by decide) rfl).2.1 "abort" none none "/w" 0 "s2" (by decide)).1⟩

end CCWrapper
